import Mathlib

/-!
Shallow embedding of `internal/cachevalue/cache.go` (package `cachevalue`),
a generic single-value TTL cache, together with a small interleaving model
of the two atomic stores in `Cache.update` and the two atomic loads in
`Cache.GetWithCtx` (for the publication-atomicity claims).

Modelling conventions:
* `time.Duration` and nanosecond instants are `Int` (Go `int64`); millisecond
  instants (`time.Time.UnixMilli`) are `Int` as well.  Go's `int64` division
  truncates toward zero, which is `Int.tdiv`.
* `context.Context` is the inductive `Ctx`: the distinguished
  `Ctx.background` models `context.Background()`, `Ctx.caller i` models a
  caller-supplied context.
* The refresh function `updateFn func(ctx) (T, error)` is a pure
  `Ctx → Except E T` (`Except.error` = non-nil Go error).
* `atomic.Pointer[T]` is `Option T` (`none` = nil pointer),
  `atomic.Int64` is `Int`, `sync.Mutex` is the Bool `updating`
  (`true` = currently held), `sync.Once` is the Bool `onceDone`.
* `GetWithCtx` reads the clock at three places: `time.Now().UnixMilli()` at
  the top (parameter `tNowMs`), `time.Since(...)` in the double check
  (parameter `tCheckNs`, a nanosecond instant), and the stamp written by a
  successful `update` (parameter `stampMs`).  The theorems instantiate the
  first two coherently as one instant `nowNs` with
  `tNowMs = Int.tdiv nowNs 1000000`.
* The returned `GetResult` additionally records, as observations, which
  branch of the Go code produced the return (`path`), the context of a
  synchronous `t.update(ctx)` invocation if one happened
  (`syncRefreshCtx`), the context of a background goroutine refresh spawned
  by the NoWait branch if one happened (`bgRefreshCtx`), and whether the
  final `*t.val.Load()` dereferenced a nil pointer (`nilDeref`).  The cache
  in the result is the state at return, before any spawned goroutine runs.
-/

namespace Cachevalue

/-- Model of `context.Context`: `background` is `context.Background()`. -/
inductive Ctx where
  | background
  | caller (id : Nat)
deriving DecidableEq, Repr

/-- `Opts` from cache.go:26-35. -/
structure Opts where
  ReturnLastGood : Bool
  NoWait : Bool
deriving DecidableEq, Repr

/-- `Cache[T any]` from cache.go:39-63, with error type `E` made explicit. -/
structure Cache (T : Type) (E : Type) where
  updateFn : Ctx → Except E T
  ttl : Int
  opts : Opts
  onceDone : Bool
  val : Option T
  lastUpdateMs : Int
  updating : Bool

/-- Go `time.Duration.Milliseconds()`: `int64(d) / 1e6`, truncating toward
zero. -/
def durMilliseconds (d : Int) : Int :=
  Int.tdiv d 1000000

/-- `NewFromFunc` (cache.go:71-77).  All fields not named in the Go composite
literal take their zero values: `Once` unused, `val` nil, `lastUpdateMs` 0,
mutex unlocked. -/
def NewFromFunc {T E : Type} (ttl : Int) (opts : Opts)
    (upd : Ctx → Except E T) : Cache T E :=
  { updateFn := upd
    ttl := ttl
    opts := opts
    onceDone := false
    val := none
    lastUpdateMs := 0
    updating := false }

/-- `InitOnce` (cache.go:80-86): `t.Once.Do` runs the closure only if the
`sync.Once` has never completed. -/
def Cache.InitOnce {T E : Type} (t : Cache T E) (ttl : Int) (opts : Opts)
    (upd : Ctx → Except E T) : Cache T E :=
  if t.onceDone then t
  else { t with ttl := ttl, updateFn := upd, opts := opts, onceDone := true }

/-- Result of the internal `update` (cache.go:144-158): the cache state after
the call and the returned error (`none` = nil). -/
structure UpdateResult (T E : Type) where
  cache : Cache T E
  err : Option E

/-- Internal `update` (cache.go:144-158).  `stampMs` is the value of
`time.Now().UnixMilli()` at the store on line 156. -/
def Cache.update {T E : Type} (t : Cache T E) (ctx : Ctx) (stampMs : Int) :
    UpdateResult T E :=
  match t.updateFn ctx with
  | Except.error e =>
      if t.opts.ReturnLastGood && t.val.isSome then
        { cache := t, err := none }
      else
        { cache := t, err := some e }
  | Except.ok v =>
      { cache := { t with val := some v, lastUpdateMs := stampMs },
        err := none }

/-- Which branch of `GetWithCtx` produced the return value. -/
inductive GetPath where
  | fresh
  | staleServe
  | syncHit
  | syncRefresh
deriving DecidableEq, Repr

/-- Observable outcome of one `GetWithCtx` call (see module docstring). -/
structure GetResult (T E : Type) where
  cache : Cache T E
  value : T
  err : Option E
  syncRefreshCtx : Option Ctx
  bgRefreshCtx : Option Ctx
  path : GetPath
  nilDeref : Bool

/-- The tail of the synchronous path (cache.go:128-134): run `t.update(ctx)`
and return.  On nil error the Go code returns `*t.val.Load()`; a nil pointer
there is recorded as `nilDeref := true`.  The deferred `Unlock` makes the
returned state unlocked. -/
def Cache.syncDoUpdate {T E : Type} [Inhabited T] (t : Cache T E) (ctx : Ctx)
    (stampMs : Int) : GetResult T E :=
  let r := t.update ctx stampMs
  match r.err with
  | some e =>
      { cache := { r.cache with updating := false }
        value := default
        err := some e
        syncRefreshCtx := some ctx
        bgRefreshCtx := none
        path := GetPath.syncRefresh
        nilDeref := false }
  | none =>
      match r.cache.val with
      | some x =>
          { cache := { r.cache with updating := false }
            value := x
            err := none
            syncRefreshCtx := some ctx
            bgRefreshCtx := none
            path := GetPath.syncRefresh
            nilDeref := false }
      | none =>
          { cache := { r.cache with updating := false }
            value := default
            err := none
            syncRefreshCtx := some ctx
            bgRefreshCtx := none
            path := GetPath.syncRefresh
            nilDeref := true }

/-- The synchronous path of `GetWithCtx` after `t.updating.Lock()`
(cache.go:117-134).  `t` is the cache state as observed once the lock is
held (it may differ from the state seen before blocking).  The double check
on line 122 is `time.Since(time.UnixMilli(t.lastUpdateMs.Load())) < ttl`,
i.e. it compares whole nanoseconds against the un-truncated `ttl`; line 123
re-loads `t.val`. -/
def Cache.syncUpdatePath {T E : Type} [Inhabited T] (t : Cache T E)
    (ctx : Ctx) (tCheckNs stampMs : Int) : GetResult T E :=
  if tCheckNs - t.lastUpdateMs * 1000000 < t.ttl then
    match t.val with
    | some x =>
        { cache := { t with updating := false }
          value := x
          err := none
          syncRefreshCtx := none
          bgRefreshCtx := none
          path := GetPath.syncHit
          nilDeref := false }
    | none => t.syncDoUpdate ctx stampMs
  else
    t.syncDoUpdate ctx stampMs

/-- `GetWithCtx` (cache.go:92-135).
Line 100: fresh if `v != nil && tNow-vTime < ttl.Milliseconds()`.
Line 107: NoWait branch if `t.opts.NoWait && v != nil &&
tNow-vTime < ttl.Milliseconds()*2`; `TryLock` succeeds iff the mutex is
free, and on success a goroutine running `t.update(context.Background())`
is spawned (recorded in `bgRefreshCtx`; its later effect is not part of
this call's return).  Line 114 returns `*v, nil` whether or not the
TryLock succeeded.  Otherwise the blocking synchronous path. -/
def Cache.GetWithCtx {T E : Type} [Inhabited T] (t : Cache T E) (ctx : Ctx)
    (tNowMs tCheckNs stampMs : Int) : GetResult T E :=
  match t.val with
  | some x =>
      if tNowMs - t.lastUpdateMs < durMilliseconds t.ttl then
        { cache := t
          value := x
          err := none
          syncRefreshCtx := none
          bgRefreshCtx := none
          path := GetPath.fresh
          nilDeref := false }
      else if t.opts.NoWait ∧
          tNowMs - t.lastUpdateMs < durMilliseconds t.ttl * 2 then
        if t.updating then
          { cache := t
            value := x
            err := none
            syncRefreshCtx := none
            bgRefreshCtx := none
            path := GetPath.staleServe
            nilDeref := false }
        else
          { cache := { t with updating := true }
            value := x
            err := none
            syncRefreshCtx := none
            bgRefreshCtx := some Ctx.background
            path := GetPath.staleServe
            nilDeref := false }
      else
        t.syncUpdatePath ctx tCheckNs stampMs
  | none => t.syncUpdatePath ctx tCheckNs stampMs

/-- `Get` (cache.go:139-141): `GetWithCtx(context.Background())`. -/
def Cache.Get {T E : Type} [Inhabited T] (t : Cache T E)
    (tNowMs tCheckNs stampMs : Int) : GetResult T E :=
  t.GetWithCtx Ctx.background tNowMs tCheckNs stampMs

/-!
Interleaving model for the publication of the `(value, timestamp)` pair.

A successful `update` publishes with two separate sequentially consistent
atomic operations, in this order (cache.go:155-156):
`t.val.Store(&val)` then `t.lastUpdateMs.Store(now)`.
A concurrent reader in `GetWithCtx` performs two atomic loads, in this
order (cache.go:94-96): `v := t.val.Load()` then
`vTime := t.lastUpdateMs.Load()`.

`PubTrace` is the shared memory (`sval`, `sts`), the writer's and reader's
program counters, and the reader's two observations.  A schedule is a list
of booleans, `true` meaning the writer executes its next atomic step.
-/

/-- Shared state plus both threads' progress for the two-store / two-load
publication race. -/
structure PubTrace (T : Type) where
  sval : T
  sts : Int
  wpc : Nat
  rpc : Nat
  robsV : Option T
  robsT : Option Int
deriving DecidableEq, Repr

/-- Initial state: memory holds the old pair, nothing executed yet. -/
def pubInit {T : Type} (oldV : T) (oldT : Int) : PubTrace T :=
  { sval := oldV, sts := oldT, wpc := 0, rpc := 0, robsV := none,
    robsT := none }

/-- One atomic step.  Writer: step 0 is `t.val.Store(&val)`, step 1 is
`t.lastUpdateMs.Store(now)`.  Reader: step 0 is `v := t.val.Load()`,
step 1 is `vTime := t.lastUpdateMs.Load()`. -/
def pubStep {T : Type} (newV : T) (newT : Int) (s : PubTrace T)
    (isWriter : Bool) : PubTrace T :=
  if isWriter then
    match s.wpc with
    | 0 => { s with sval := newV, wpc := 1 }
    | 1 => { s with sts := newT, wpc := 2 }
    | _ => s
  else
    match s.rpc with
    | 0 => { s with robsV := some s.sval, rpc := 1 }
    | 1 => { s with robsT := some s.sts, rpc := 2 }
    | _ => s

/-- Run a schedule from the initial state. -/
def pubRun {T : Type} (oldV newV : T) (oldT newT : Int)
    (sched : List Bool) : PubTrace T :=
  sched.foldl (pubStep newV newT) (pubInit oldV oldT)

end Cachevalue

namespace Cachevalue

/-! Arithmetic helpers about the millisecond truncation `Int.tdiv · 1000000`
used by `durMilliseconds` and `UnixMilli`. -/

/-- For nonnegative operands Go's truncating division agrees with floor
division. -/
lemma tdiv_1e6_eq_ediv (n : Int) (hn : 0 ≤ n) :
    Int.tdiv n 1000000 = n / 1000000 :=
  Int.tdiv_eq_ediv hn (by norm_num)

/-- `n < k·10⁶ → n.tdiv 10⁶ < k` for `0 ≤ n`. -/
lemma tdiv_1e6_lt {n k : Int} (hn : 0 ≤ n) (h : n < k * 1000000) :
    Int.tdiv n 1000000 < k := by
  rw [tdiv_1e6_eq_ediv n hn]
  omega

/-- `k·10⁶ ≤ n → k ≤ n.tdiv 10⁶` for `0 ≤ n`. -/
lemma le_tdiv_1e6 {n k : Int} (hn : 0 ≤ n) (h : k * 1000000 ≤ n) :
    k ≤ Int.tdiv n 1000000 := by
  rw [tdiv_1e6_eq_ediv n hn]
  omega

/-- Truncation loses at most one unit: `(d.tdiv 10⁶)·10⁶ ≤ d` for `0 ≤ d`. -/
lemma tdiv_1e6_mul_le {d : Int} (hd : 0 ≤ d) :
    Int.tdiv d 1000000 * 1000000 ≤ d := by
  rw [tdiv_1e6_eq_ediv d hd]
  omega

/-- `durMilliseconds` is nonnegative on nonnegative durations. -/
lemma durMilliseconds_nonneg {d : Int} (hd : 0 ≤ d) :
    0 ≤ durMilliseconds d := by
  unfold durMilliseconds
  rw [tdiv_1e6_eq_ediv d hd]
  omega

/-! Structural facts about the synchronous path, shared by several claims. -/

/-- A nil error from `update` implies the stored pointer is non-nil: a
success stores a fresh value, and the `ReturnLastGood` suppression fires
only behind the `t.val.Load() != nil` test on cache.go:148. -/
lemma update_err_none_isSome {T E : Type} (c : Cache T E) (ctx : Ctx)
    (stampMs : Int) :
    (c.update ctx stampMs).err = none →
      (c.update ctx stampMs).cache.val.isSome = true := by
  unfold Cache.update
  cases hf : c.updateFn ctx with
  | error e =>
      dsimp only
      by_cases hg : (c.opts.ReturnLastGood && c.val.isSome) = true
      · rw [if_pos hg]
        intro _
        exact ((Bool.and_eq_true _ _).mp hg).2
      · rw [if_neg hg]
        intro h
        exact absurd h (by simp)
  | ok v =>
      intro _
      rfl

/-- `syncDoUpdate` always records the synchronous refresh with the caller's
context and never dereferences nil. -/
lemma syncDoUpdate_fields {T E : Type} [Inhabited T] (c : Cache T E)
    (ctx : Ctx) (stampMs : Int) :
    (c.syncDoUpdate ctx stampMs).syncRefreshCtx = some ctx ∧
    (c.syncDoUpdate ctx stampMs).path = GetPath.syncRefresh ∧
    (c.syncDoUpdate ctx stampMs).nilDeref = false := by
  cases hu : c.update ctx stampMs with
  | mk c2 err =>
      unfold Cache.syncDoUpdate
      rw [hu]
      cases err with
      | some e => exact ⟨rfl, rfl, rfl⟩
      | none =>
          have hs : c2.val.isSome = true := by
            have h2 := update_err_none_isSome c ctx stampMs (by rw [hu])
            rwa [hu] at h2
          dsimp only
          cases hv : c2.val with
          | none => rw [hv] at hs; exact absurd hs (by simp)
          | some x => exact ⟨rfl, rfl, rfl⟩

/-- The synchronous path ends either in the double-check hit or in a
synchronous refresh, and never dereferences nil. -/
lemma syncUpdatePath_path {T E : Type} [Inhabited T] (c : Cache T E)
    (ctx : Ctx) (tCheckNs stampMs : Int) :
    ((c.syncUpdatePath ctx tCheckNs stampMs).path = GetPath.syncHit ∨
      (c.syncUpdatePath ctx tCheckNs stampMs).path = GetPath.syncRefresh) ∧
    (c.syncUpdatePath ctx tCheckNs stampMs).nilDeref = false := by
  unfold Cache.syncUpdatePath
  split
  · split
    · exact ⟨Or.inl rfl, rfl⟩
    · exact ⟨Or.inr (syncDoUpdate_fields c ctx stampMs).2.1,
        (syncDoUpdate_fields c ctx stampMs).2.2⟩
  · exact ⟨Or.inr (syncDoUpdate_fields c ctx stampMs).2.1,
      (syncDoUpdate_fields c ctx stampMs).2.2⟩

/-- If the nanosecond double check fails, the synchronous path performs the
refresh. -/
lemma syncUpdatePath_eq_doUpdate {T E : Type} [Inhabited T] (c : Cache T E)
    (ctx : Ctx) (tCheckNs stampMs : Int)
    (h : c.ttl ≤ tCheckNs - c.lastUpdateMs * 1000000) :
    c.syncUpdatePath ctx tCheckNs stampMs = c.syncDoUpdate ctx stampMs := by
  unfold Cache.syncUpdatePath
  rw [if_neg (not_lt.mpr h)]

/-- With no stored value the synchronous path performs the refresh whatever
the double check says (line 123 re-tests `v != nil`). -/
lemma syncUpdatePath_none_eq_doUpdate {T E : Type} [Inhabited T]
    (c : Cache T E) (ctx : Ctx) (tCheckNs stampMs : Int)
    (hv : c.val = none) :
    c.syncUpdatePath ctx tCheckNs stampMs = c.syncDoUpdate ctx stampMs := by
  unfold Cache.syncUpdatePath
  rw [hv]
  split
  · rfl
  · rfl

/-- Routing: when the millisecond fresh test and the millisecond NoWait
test both fail, `GetWithCtx` takes the synchronous path. -/
lemma getWithCtx_eq_syncPath {T E : Type} [Inhabited T] (c : Cache T E)
    (ctx : Ctx) (tNowMs tCheckNs stampMs : Int)
    (h1 : durMilliseconds c.ttl ≤ tNowMs - c.lastUpdateMs)
    (h2 : c.opts.NoWait = false ∨
      durMilliseconds c.ttl * 2 ≤ tNowMs - c.lastUpdateMs) :
    c.GetWithCtx ctx tNowMs tCheckNs stampMs =
      c.syncUpdatePath ctx tCheckNs stampMs := by
  unfold Cache.GetWithCtx
  cases hv : c.val with
  | none => rfl
  | some x =>
      dsimp only
      rw [if_neg (not_lt.mpr h1)]
      have hno : ¬(c.opts.NoWait = true ∧
          tNowMs - c.lastUpdateMs < durMilliseconds c.ttl * 2) := by
        rcases h2 with h | h
        · rintro ⟨hnw, -⟩
          rw [h] at hnw
          exact Bool.false_ne_true hnw
        · rintro ⟨-, hlt⟩
          omega
      rw [if_neg hno]

/-! Concrete fixtures used by counterexamples and witnesses. -/

/-- Both option flags off. -/
def optsPlain : Opts := { ReturnLastGood := false, NoWait := false }

/-- Only `NoWait` set. -/
def optsNoWait : Opts := { ReturnLastGood := false, NoWait := true }

/-- Only `ReturnLastGood` set. -/
def optsLastGood : Opts := { ReturnLastGood := true, NoWait := false }

/-- Refresh returning 1. -/
def updOkOne : Ctx → Except String Int := fun _ => Except.ok 1

/-- Refresh returning 2. -/
def updOkTwo : Ctx → Except String Int := fun _ => Except.ok 2

/-- Failing refresh. -/
def updErrBoom : Ctx → Except String Int := fun _ => Except.error "boom"

/-! ## C1 -/

/-- C1 (counterexample): a cache bound by `NewFromFunc` with ttl 5000000 ns
is rebound by a subsequent `InitOnce` to ttl 9000000 ns, because
`NewFromFunc` never consumes the `sync.Once`; so initOnce after a
`NewFromFunc` binding is not ignored, contradicting the claim that the
first-bound ttl remains in effect. -/
theorem C1_counterexample :
    ((NewFromFunc (T := Int) (E := String) 5000000 optsPlain
        updOkOne).InitOnce 9000000 optsNoWait updOkTwo).ttl = 9000000 ∧
    (9000000 : Int) ≠ 5000000 := by
  constructor
  · rfl
  · decide

/-- C1 (amended): among `InitOnce` calls the first completed one wins: a
second `InitOnce` with arbitrary other parameters leaves the cache exactly
as the first `InitOnce` left it, so the ttl, options and refresh function
bound by the first `InitOnce` stay in effect.  (A binding made by
`NewFromFunc` alone does not consume the `Once` and is overwritten by a
later `InitOnce`.) -/
theorem C1_initOnce_first_wins {T E : Type} (c : Cache T E)
    (ttl1 ttl2 : Int) (o1 o2 : Opts) (f1 f2 : Ctx → Except E T) :
    (c.InitOnce ttl1 o1 f1).InitOnce ttl2 o2 f2 = c.InitOnce ttl1 o1 f1 := by
  unfold Cache.InitOnce
  by_cases h : c.onceDone <;> simp [h]

/-! ## C8 -/

/-- C8: when the refresh function returns an error, the internal `update`
mutates neither the stored value nor the stored timestamp, whether the
error is suppressed by `ReturnLastGood` or propagated. -/
theorem C8_error_no_mutation {T E : Type} (c : Cache T E) (ctx : Ctx)
    (stampMs : Int) (e : E) (herr : c.updateFn ctx = Except.error e) :
    (c.update ctx stampMs).cache.val = c.val ∧
    (c.update ctx stampMs).cache.lastUpdateMs = c.lastUpdateMs := by
  unfold Cache.update
  rw [herr]
  dsimp only
  split
  · exact ⟨rfl, rfl⟩
  · exact ⟨rfl, rfl⟩

/-- A failing-refresh cache with `ReturnLastGood` set, holding value 7
stamped at ms 3. -/
def cacheErrLastGood : Cache Int String :=
  { updateFn := updErrBoom
    ttl := 1000000
    opts := optsLastGood
    onceDone := true
    val := some 7
    lastUpdateMs := 3
    updating := false }

/-- Witness for C8 at a concrete failing refresh. -/
theorem C8_error_no_mutation_witness :
    (cacheErrLastGood.update (Ctx.caller 0) 99).cache.val =
      cacheErrLastGood.val ∧
    (cacheErrLastGood.update (Ctx.caller 0) 99).cache.lastUpdateMs =
      cacheErrLastGood.lastUpdateMs :=
  C8_error_no_mutation cacheErrLastGood (Ctx.caller 0) 99 "boom" rfl

/-! ## C4 -/

/-- C4: in the synchronous refresh path, once the update guard is held, if
the re-loaded timestamp is within ttl of now (nanosecond comparison of
cache.go:122) and the re-loaded value is present, that value is returned
with a nil error and no refresh is invoked; conversely the refresh runs
only when this re-check fails. -/
theorem C4_double_check {T E : Type} [Inhabited T] (c : Cache T E)
    (ctx : Ctx) (x : T) (tCheckNs stampMs : Int) :
    (tCheckNs - c.lastUpdateMs * 1000000 < c.ttl → c.val = some x →
      (c.syncUpdatePath ctx tCheckNs stampMs).value = x ∧
      (c.syncUpdatePath ctx tCheckNs stampMs).err = none ∧
      (c.syncUpdatePath ctx tCheckNs stampMs).syncRefreshCtx = none ∧
      (c.syncUpdatePath ctx tCheckNs stampMs).path = GetPath.syncHit) ∧
    ((c.syncUpdatePath ctx tCheckNs stampMs).syncRefreshCtx.isSome = true →
      ¬(tCheckNs - c.lastUpdateMs * 1000000 < c.ttl ∧
        c.val.isSome = true)) := by
  constructor
  · intro ht hv
    unfold Cache.syncUpdatePath
    rw [if_pos ht, hv]
    exact ⟨rfl, rfl, rfl, rfl⟩
  · intro hs hcon
    obtain ⟨ht, hv⟩ := hcon
    obtain ⟨y, hy⟩ := Option.isSome_iff_exists.mp hv
    unfold Cache.syncUpdatePath at hs
    rw [if_pos ht, hy] at hs
    exact absurd hs (by simp)

/-- A cache fresh in nanoseconds: value 5 stamped at ms 0, ttl 1 ms. -/
def cacheDoubleCheck : Cache Int String :=
  { updateFn := updOkTwo
    ttl := 1000000
    opts := optsPlain
    onceDone := true
    val := some 5
    lastUpdateMs := 0
    updating := false }

/-- Witness for C4 with the guard held at 0.4 ms after the stamp. -/
theorem C4_double_check_witness :
    (cacheDoubleCheck.syncUpdatePath (Ctx.caller 1) 400000 8).value = 5 ∧
    (cacheDoubleCheck.syncUpdatePath (Ctx.caller 1) 400000 8).err = none ∧
    (cacheDoubleCheck.syncUpdatePath (Ctx.caller 1) 400000
      8).syncRefreshCtx = none :=
  ⟨((C4_double_check cacheDoubleCheck (Ctx.caller 1) 5 400000 8).1
      (by decide) rfl).1,
   ((C4_double_check cacheDoubleCheck (Ctx.caller 1) 5 400000 8).1
      (by decide) rfl).2.1,
   ((C4_double_check cacheDoubleCheck (Ctx.caller 1) 5 400000 8).1
      (by decide) rfl).2.2.1⟩

/-! ## C10 -/

/-- C10: whenever the internal `update` returns a nil error the stored
pointer is non-nil, and consequently the dereference `*t.val.Load()` at the
end of the synchronous path of `GetWithCtx` never dereferences nil, for any
cache state, context and clock readings. -/
theorem C10_no_nil_deref {T E : Type} [Inhabited T] (c : Cache T E)
    (ctx : Ctx) (tNowMs tCheckNs stampMs : Int) :
    ((c.update ctx stampMs).err = none →
      (c.update ctx stampMs).cache.val.isSome = true) ∧
    (c.GetWithCtx ctx tNowMs tCheckNs stampMs).nilDeref = false := by
  refine ⟨update_err_none_isSome c ctx stampMs, ?_⟩
  unfold Cache.GetWithCtx
  cases hv : c.val with
  | none => exact (syncUpdatePath_path c ctx tCheckNs stampMs).2
  | some x =>
      dsimp only
      split
      · rfl
      · split
        · split
          · rfl
          · rfl
        · exact (syncUpdatePath_path c ctx tCheckNs stampMs).2

/-! ## C7 -/

/-- Preservation of the writer-order invariant by one interleaving step:
before the writer's first store the timestamp is still the old one, and
from the writer's first store onward the stored value is the new one. -/
lemma pubStep_inv {T : Type} (newV : T) (newT oldT : Int) (s : PubTrace T)
    (b : Bool)
    (h1 : s.wpc = 0 → s.sts = oldT) (h2 : 1 ≤ s.wpc → s.sval = newV) :
    ((pubStep newV newT s b).wpc = 0 → (pubStep newV newT s b).sts = oldT) ∧
    (1 ≤ (pubStep newV newT s b).wpc →
      (pubStep newV newT s b).sval = newV) := by
  obtain ⟨sv, st, w, r, ov, ot⟩ := s
  dsimp only at h1 h2
  unfold pubStep
  cases b with
  | false =>
      rcases r with _ | _ | r
      · exact ⟨h1, h2⟩
      · exact ⟨h1, h2⟩
      · exact ⟨h1, h2⟩
  | true =>
      rcases w with _ | _ | w
      · exact ⟨fun h => absurd h one_ne_zero, fun _ => rfl⟩
      · exact ⟨fun h => absurd h (Nat.succ_ne_zero 1), fun _ => h2 (le_refl 1)⟩
      · exact ⟨h1, h2⟩

/-- C7 (counterexample): publishing the pair (value 2, stamp 20) over the
old pair (1, 10) with the two separate atomic stores of cache.go:155-156,
the interleaving "reader loads value; writer stores value; writer stores
timestamp; reader loads timestamp" makes the reader observe the OLD value 1
together with the NEW timestamp 20 — exactly the mixed pair the claim says
no reader ever observes. -/
theorem C7_counterexample :
    (pubRun (T := Int) 1 2 10 20 [false, true, true, false]).robsV =
      some 1 ∧
    (pubRun (T := Int) 1 2 10 20 [false, true, true, false]).robsT =
      some 20 := by
  exact ⟨rfl, rfl⟩

/-- C7 (amended): the writer stores the value strictly before the
timestamp, so in every interleaving the shared memory satisfies: whenever
the stored timestamp is already the new one, the stored value is the new
one.  A reader loading value before timestamp may still pair the old value
with the new timestamp (see the counterexample), so the pair is published
in order, not as one atomic unit. -/
theorem C7_value_stored_before_timestamp {T : Type} (oldV newV : T)
    (oldT newT : Int) (hne : oldT ≠ newT) (sched : List Bool) :
    (pubRun oldV newV oldT newT sched).sts = newT →
      (pubRun oldV newV oldT newT sched).sval = newV := by
  have main : ∀ (l : List Bool) (s : PubTrace T),
      ((s.wpc = 0 → s.sts = oldT) ∧ (1 ≤ s.wpc → s.sval = newV)) →
      (((l.foldl (pubStep newV newT) s).wpc = 0 →
          (l.foldl (pubStep newV newT) s).sts = oldT) ∧
        (1 ≤ (l.foldl (pubStep newV newT) s).wpc →
          (l.foldl (pubStep newV newT) s).sval = newV)) := by
    intro l
    induction l with
    | nil => intro s hs; exact hs
    | cons b rest ih =>
        intro s hs
        exact ih (pubStep newV newT s b)
          (pubStep_inv newV newT oldT s b hs.1 hs.2)
  intro hsts
  unfold pubRun at hsts ⊢
  have hP := main sched (pubInit oldV oldT)
    ⟨fun _ => rfl, fun h => absurd h (by simp [pubInit])⟩
  rcases Nat.eq_zero_or_pos (sched.foldl (pubStep newV newT)
      (pubInit oldV oldT)).wpc with h0 | hpos
  · exact absurd ((hP.1 h0).symm.trans hsts) hne
  · exact hP.2 hpos

/-- Witness for the amended C7: after both writer steps the stored value is
the new one. -/
theorem C7_value_stored_before_timestamp_witness :
    (pubRun (T := Int) 1 2 10 20 [true, true]).sval = 2 :=
  C7_value_stored_before_timestamp 1 2 10 20 (by decide) [true, true] rfl

/-! ## C6 -/

/-- Routing lemma: with a coherent clock (`tNowMs` is the millisecond
truncation of the nanosecond instant passed to the double check), a missing
value, an age of at least 2·ttl, or a disabled NoWait with an age of at
least ttl, all funnel `GetWithCtx` into the synchronous refresh. -/
lemma getWithCtx_syncDoUpdate {T E : Type} [Inhabited T] (c : Cache T E)
    (ctx : Ctx) (nowNs stampMs : Int)
    (hvt : 0 ≤ c.lastUpdateMs) (hnow : 0 ≤ nowNs) (httl : 0 ≤ c.ttl)
    (hcase : c.val = none ∨
      2 * c.ttl ≤ nowNs - c.lastUpdateMs * 1000000 ∨
      (c.opts.NoWait = false ∧
        c.ttl ≤ nowNs - c.lastUpdateMs * 1000000)) :
    c.GetWithCtx ctx (Int.tdiv nowNs 1000000) nowNs stampMs =
      c.syncDoUpdate ctx stampMs := by
  have hms : Int.tdiv nowNs 1000000 = nowNs / 1000000 :=
    tdiv_1e6_eq_ediv nowNs hnow
  have hmt : durMilliseconds c.ttl = c.ttl / 1000000 := by
    unfold durMilliseconds
    exact tdiv_1e6_eq_ediv _ httl
  rcases hcase with hv | hage | ⟨hnw, hage⟩
  · have h0 : c.GetWithCtx ctx (Int.tdiv nowNs 1000000) nowNs stampMs =
        c.syncUpdatePath ctx nowNs stampMs := by
      unfold Cache.GetWithCtx
      rw [hv]
    rw [h0]
    exact syncUpdatePath_none_eq_doUpdate c ctx nowNs stampMs hv
  · have h1 : durMilliseconds c.ttl ≤
        Int.tdiv nowNs 1000000 - c.lastUpdateMs := by
      rw [hms, hmt]; omega
    have h2 : durMilliseconds c.ttl * 2 ≤
        Int.tdiv nowNs 1000000 - c.lastUpdateMs := by
      rw [hms, hmt]; omega
    rw [getWithCtx_eq_syncPath c ctx _ nowNs stampMs h1 (Or.inr h2)]
    exact syncUpdatePath_eq_doUpdate c ctx nowNs stampMs (by omega)
  · have h1 : durMilliseconds c.ttl ≤
        Int.tdiv nowNs 1000000 - c.lastUpdateMs := by
      rw [hms, hmt]; omega
    rw [getWithCtx_eq_syncPath c ctx _ nowNs stampMs h1 (Or.inl hnw)]
    exact syncUpdatePath_eq_doUpdate c ctx nowNs stampMs hage

/-- C6: when no value is stored, or the stored value's age (nanoseconds
since the stored millisecond stamp) is at least 2·ttl, or NoWait is
disabled and the age is at least ttl, `GetWithCtx` takes the synchronous
refresh path: the whole call returns exactly the outcome of the
synchronous update, and that update runs with the caller-supplied
context. -/
theorem C6_sync_refresh_route {T E : Type} [Inhabited T] (c : Cache T E)
    (ctx : Ctx) (nowNs stampMs : Int)
    (hvt : 0 ≤ c.lastUpdateMs) (hnow : 0 ≤ nowNs) (httl : 0 ≤ c.ttl)
    (hcase : c.val = none ∨
      2 * c.ttl ≤ nowNs - c.lastUpdateMs * 1000000 ∨
      (c.opts.NoWait = false ∧
        c.ttl ≤ nowNs - c.lastUpdateMs * 1000000)) :
    c.GetWithCtx ctx (Int.tdiv nowNs 1000000) nowNs stampMs =
      c.syncDoUpdate ctx stampMs ∧
    (c.syncDoUpdate ctx stampMs).syncRefreshCtx = some ctx ∧
    (c.syncDoUpdate ctx stampMs).path = GetPath.syncRefresh :=
  ⟨getWithCtx_syncDoUpdate c ctx nowNs stampMs hvt hnow httl hcase,
   (syncDoUpdate_fields c ctx stampMs).1,
   (syncDoUpdate_fields c ctx stampMs).2.1⟩

/-- An empty cache whose refresh succeeds. -/
def cacheEmptyOk : Cache Int String :=
  { updateFn := updOkOne
    ttl := 1000000
    opts := optsPlain
    onceDone := true
    val := none
    lastUpdateMs := 0
    updating := false }

/-- Witness for C10: a successful update on the empty cache stores a value,
and the concrete `GetWithCtx` run performs no nil dereference. -/
theorem C10_no_nil_deref_witness :
    ((cacheEmptyOk.update (Ctx.caller 2) 4).cache.val.isSome = true) ∧
    (cacheEmptyOk.GetWithCtx (Ctx.caller 2) 0 0 4).nilDeref = false :=
  ⟨(C10_no_nil_deref cacheEmptyOk (Ctx.caller 2) 0 0 4).1 rfl,
   (C10_no_nil_deref cacheEmptyOk (Ctx.caller 2) 0 0 4).2⟩

/-- Witness for C6: an empty cache routes to the synchronous refresh. -/
theorem C6_sync_refresh_route_witness :
    cacheEmptyOk.GetWithCtx (Ctx.caller 3) (Int.tdiv 0 1000000) 0 4 =
      cacheEmptyOk.syncDoUpdate (Ctx.caller 3) 4 ∧
    (cacheEmptyOk.syncDoUpdate (Ctx.caller 3) 4).syncRefreshCtx =
      some (Ctx.caller 3) ∧
    (cacheEmptyOk.syncDoUpdate (Ctx.caller 3) 4).path =
      GetPath.syncRefresh :=
  C6_sync_refresh_route cacheEmptyOk (Ctx.caller 3) 0 4 (by decide)
    (by decide) (by decide) (Or.inl rfl)

/-! ## C2 -/

/-- Helper: the outcome of the synchronous refresh when the refresh
function fails while a value is present — `ReturnLastGood` keeps the old
value with a nil error, otherwise the zero value and the error come
back. -/
lemma syncDoUpdate_error_outcome {T E : Type} [Inhabited T] (c : Cache T E)
    (ctx : Ctx) (stampMs : Int) (x : T) (e : E)
    (hval : c.val = some x) (herr : c.updateFn ctx = Except.error e) :
    (c.opts.ReturnLastGood = true →
      (c.syncDoUpdate ctx stampMs).value = x ∧
      (c.syncDoUpdate ctx stampMs).err = none) ∧
    (c.opts.ReturnLastGood = false →
      (c.syncDoUpdate ctx stampMs).value = default ∧
      (c.syncDoUpdate ctx stampMs).err = some e) := by
  constructor
  · intro hrlg
    have hu : c.update ctx stampMs = { cache := c, err := none } := by
      unfold Cache.update
      rw [herr]
      dsimp only
      rw [if_pos (by rw [hrlg, hval]; rfl)]
    unfold Cache.syncDoUpdate
    rw [hu]
    dsimp only
    rw [hval]
    exact ⟨rfl, rfl⟩
  · intro hrlg
    have hu : c.update ctx stampMs = { cache := c, err := some e } := by
      unfold Cache.update
      rw [herr]
      dsimp only
      rw [if_neg (by rw [hrlg]; simp)]
    unfold Cache.syncDoUpdate
    rw [hu]
    exact ⟨rfl, rfl⟩

/-- NoWait cache without `ReturnLastGood`, failing refresh, value 7 stamped
at ms 0, ttl 1 ms. -/
def cacheNoWaitErr : Cache Int String :=
  { updateFn := updErrBoom
    ttl := 1000000
    opts := optsNoWait
    onceDone := true
    val := some 7
    lastUpdateMs := 0
    updating := false }

/-- C2 (counterexample): age 1.5 ms ≥ ttl = 1 ms, `ReturnLastGood` unset
and the refresh failing, yet `GetWithCtx` returns the old value 7 with a
nil error — the NoWait stale-serve branch pre-empts the claimed
zero-value-and-error outcome. -/
theorem C2_counterexample :
    cacheNoWaitErr.opts.ReturnLastGood = false ∧
    cacheNoWaitErr.updateFn (Ctx.caller 0) = Except.error "boom" ∧
    cacheNoWaitErr.ttl ≤ 1500000 - cacheNoWaitErr.lastUpdateMs * 1000000 ∧
    (cacheNoWaitErr.GetWithCtx (Ctx.caller 0) 1 1500000 2).value = 7 ∧
    (cacheNoWaitErr.GetWithCtx (Ctx.caller 0) 1 1500000 2).err = none := by
  refine ⟨rfl, rfl, by decide, rfl, rfl⟩

/-- C2 (amended): for a cache holding a value of age at least ttl whose
refresh fails, PROVIDED the call takes the synchronous path (NoWait unset,
or age at least 2·ttl), `get` returns the previous value with nil error
when `ReturnLastGood` is set and the zero value with the error when it is
not. -/
theorem C2_refresh_error_outcome {T E : Type} [Inhabited T] (c : Cache T E)
    (ctx : Ctx) (x : T) (e : E) (nowNs stampMs : Int)
    (hval : c.val = some x)
    (hvt : 0 ≤ c.lastUpdateMs) (hnow : 0 ≤ nowNs) (httl : 0 ≤ c.ttl)
    (hage : c.ttl ≤ nowNs - c.lastUpdateMs * 1000000)
    (hsync : c.opts.NoWait = false ∨
      2 * c.ttl ≤ nowNs - c.lastUpdateMs * 1000000)
    (herr : c.updateFn ctx = Except.error e) :
    (c.opts.ReturnLastGood = true →
      (c.GetWithCtx ctx (Int.tdiv nowNs 1000000) nowNs stampMs).value = x ∧
      (c.GetWithCtx ctx (Int.tdiv nowNs 1000000) nowNs stampMs).err =
        none) ∧
    (c.opts.ReturnLastGood = false →
      (c.GetWithCtx ctx (Int.tdiv nowNs 1000000) nowNs stampMs).value =
        default ∧
      (c.GetWithCtx ctx (Int.tdiv nowNs 1000000) nowNs stampMs).err =
        some e) := by
  have hroute : c.GetWithCtx ctx (Int.tdiv nowNs 1000000) nowNs stampMs =
      c.syncDoUpdate ctx stampMs := by
    apply getWithCtx_syncDoUpdate c ctx nowNs stampMs hvt hnow httl
    rcases hsync with h | h
    · exact Or.inr (Or.inr ⟨h, hage⟩)
    · exact Or.inr (Or.inl h)
  rw [hroute]
  exact syncDoUpdate_error_outcome c ctx stampMs x e hval herr

/-- Witness for C2 with `ReturnLastGood` set: value 7 stamped at ms 3,
age 2 ms ≥ ttl 1 ms, failing refresh, NoWait unset. -/
theorem C2_refresh_error_outcome_witness :
    (cacheErrLastGood.GetWithCtx (Ctx.caller 0)
      (Int.tdiv 5000000 1000000) 5000000 9).value = 7 ∧
    (cacheErrLastGood.GetWithCtx (Ctx.caller 0)
      (Int.tdiv 5000000 1000000) 5000000 9).err = none :=
  (C2_refresh_error_outcome cacheErrLastGood (Ctx.caller 0) 7 "boom"
    5000000 9 rfl (by decide) (by decide) (by decide) (by decide)
    (Or.inl rfl) rfl).1 rfl

/-! ## C3 -/

/-- NoWait cache with fractional ttl 1.5 ms, value 7 stamped at ms 0. -/
def cacheFracNoWait : Cache Int String :=
  { updateFn := updOkTwo
    ttl := 1500000
    opts := optsNoWait
    onceDone := true
    val := some 7
    lastUpdateMs := 0
    updating := false }

/-- C3 (counterexample): at age 1.2 ms, strictly inside ttl = 1.5 ms, the
call returns the stored value 7 with nil error but SPAWNS a background
refresh: the ms-truncated fresh test (1 < 1) fails and the NoWait branch
invokes the refresh function, contradicting "does not invoke the refresh
function". -/
theorem C3_counterexample :
    1200000 - cacheFracNoWait.lastUpdateMs * 1000000 <
      cacheFracNoWait.ttl ∧
    (cacheFracNoWait.GetWithCtx (Ctx.caller 0) 1 1200000 2).value = 7 ∧
    (cacheFracNoWait.GetWithCtx (Ctx.caller 0) 1 1200000 2).bgRefreshCtx =
      some Ctx.background := by
  refine ⟨by decide, rfl, rfl⟩

/-- C3 (amended): provided ttl is a whole number of milliseconds, a call
while a value is stored whose age is strictly below ttl returns that value
with nil error through the fresh path, invoking no refresh (neither
synchronous nor background) and leaving the cache untouched. -/
theorem C3_fresh_no_refresh {T E : Type} [Inhabited T] (c : Cache T E)
    (ctx : Ctx) (x : T) (nowNs tCheckNs stampMs : Int)
    (hval : c.val = some x)
    (hvt : 0 ≤ c.lastUpdateMs) (hnow : 0 ≤ nowNs) (httl : 0 ≤ c.ttl)
    (hwhole : (1000000 : Int) ∣ c.ttl)
    (hage : nowNs - c.lastUpdateMs * 1000000 < c.ttl) :
    (c.GetWithCtx ctx (Int.tdiv nowNs 1000000) tCheckNs stampMs).value =
      x ∧
    (c.GetWithCtx ctx (Int.tdiv nowNs 1000000) tCheckNs stampMs).err =
      none ∧
    (c.GetWithCtx ctx (Int.tdiv nowNs 1000000) tCheckNs
      stampMs).syncRefreshCtx = none ∧
    (c.GetWithCtx ctx (Int.tdiv nowNs 1000000) tCheckNs
      stampMs).bgRefreshCtx = none ∧
    (c.GetWithCtx ctx (Int.tdiv nowNs 1000000) tCheckNs stampMs).path =
      GetPath.fresh ∧
    (c.GetWithCtx ctx (Int.tdiv nowNs 1000000) tCheckNs stampMs).cache =
      c := by
  have hguard : Int.tdiv nowNs 1000000 - c.lastUpdateMs <
      durMilliseconds c.ttl := by
    rw [tdiv_1e6_eq_ediv nowNs hnow]
    unfold durMilliseconds
    rw [tdiv_1e6_eq_ediv _ httl]
    omega
  unfold Cache.GetWithCtx
  rw [hval]
  dsimp only
  rw [if_pos hguard]
  exact ⟨rfl, rfl, rfl, rfl, rfl, rfl⟩

/-- Witness for C3: whole-ms ttl 1 ms, value 5 at ms 0, call at 0.4 ms. -/
theorem C3_fresh_no_refresh_witness :
    (cacheDoubleCheck.GetWithCtx (Ctx.caller 4)
      (Int.tdiv 400000 1000000) 400000 8).value = 5 ∧
    (cacheDoubleCheck.GetWithCtx (Ctx.caller 4)
      (Int.tdiv 400000 1000000) 400000 8).bgRefreshCtx = none ∧
    (cacheDoubleCheck.GetWithCtx (Ctx.caller 4)
      (Int.tdiv 400000 1000000) 400000 8).syncRefreshCtx = none := by
  have h := C3_fresh_no_refresh cacheDoubleCheck (Ctx.caller 4) 5
    400000 400000 8 rfl (by decide) (by decide) (by decide)
    ⟨1, by decide⟩ (by decide)
  exact ⟨h.1, h.2.2.2.1, h.2.2.1⟩

/-! ## C5 -/

/-- C5 (counterexample): ttl = 1.5 ms, NoWait set, value 7 at ms 0, call at
age 2.9 ms, inside [ttl, 2·ttl).  The ms-truncated window test (2 < 2)
fails, so instead of returning the old value and refreshing in the
background, the call performs a blocking synchronous refresh with the
caller's context and returns the freshly fetched value 2. -/
theorem C5_counterexample :
    cacheFracNoWait.ttl ≤ 2900000 - cacheFracNoWait.lastUpdateMs *
      1000000 ∧
    2900000 - cacheFracNoWait.lastUpdateMs * 1000000 <
      2 * cacheFracNoWait.ttl ∧
    (cacheFracNoWait.GetWithCtx (Ctx.caller 0) 2 2900000 3).value = 2 ∧
    (cacheFracNoWait.GetWithCtx (Ctx.caller 0) 2 2900000
      3).syncRefreshCtx = some (Ctx.caller 0) ∧
    (cacheFracNoWait.GetWithCtx (Ctx.caller 0) 2 2900000 3).path =
      GetPath.syncRefresh := by
  refine ⟨by decide, by decide, rfl, rfl, rfl⟩

/-- C5 (amended): provided ttl is a whole number of milliseconds, a NoWait
call while a value is stored with age in [ttl, 2·ttl) returns the old
value with nil error from the stale-serve branch, performs no synchronous
refresh, and spawns exactly one background refresh — with
`context.Background()`, detached from the caller's context — precisely
when no refresh is already in progress. -/
theorem C5_stale_serve {T E : Type} [Inhabited T] (c : Cache T E)
    (ctx : Ctx) (x : T) (nowNs tCheckNs stampMs : Int)
    (hval : c.val = some x) (hnw : c.opts.NoWait = true)
    (hvt : 0 ≤ c.lastUpdateMs) (hnow : 0 ≤ nowNs) (httl : 0 ≤ c.ttl)
    (hwhole : (1000000 : Int) ∣ c.ttl)
    (hage1 : c.ttl ≤ nowNs - c.lastUpdateMs * 1000000)
    (hage2 : nowNs - c.lastUpdateMs * 1000000 < 2 * c.ttl) :
    (c.GetWithCtx ctx (Int.tdiv nowNs 1000000) tCheckNs stampMs).value =
      x ∧
    (c.GetWithCtx ctx (Int.tdiv nowNs 1000000) tCheckNs stampMs).err =
      none ∧
    (c.GetWithCtx ctx (Int.tdiv nowNs 1000000) tCheckNs
      stampMs).syncRefreshCtx = none ∧
    (c.GetWithCtx ctx (Int.tdiv nowNs 1000000) tCheckNs stampMs).path =
      GetPath.staleServe ∧
    (c.GetWithCtx ctx (Int.tdiv nowNs 1000000) tCheckNs
      stampMs).bgRefreshCtx =
      (if c.updating = true then none else some Ctx.background) := by
  have hms : Int.tdiv nowNs 1000000 = nowNs / 1000000 :=
    tdiv_1e6_eq_ediv nowNs hnow
  have hmt : durMilliseconds c.ttl = c.ttl / 1000000 := by
    unfold durMilliseconds
    exact tdiv_1e6_eq_ediv _ httl
  have hg1 : ¬(Int.tdiv nowNs 1000000 - c.lastUpdateMs <
      durMilliseconds c.ttl) := by
    rw [hms, hmt]; omega
  have hg2 : Int.tdiv nowNs 1000000 - c.lastUpdateMs <
      durMilliseconds c.ttl * 2 := by
    rw [hms, hmt]; omega
  unfold Cache.GetWithCtx
  rw [hval]
  dsimp only
  rw [if_neg hg1, if_pos ⟨hnw, hg2⟩]
  by_cases hu : c.updating = true
  · rw [if_pos hu, if_pos hu]
    exact ⟨rfl, rfl, rfl, rfl, rfl⟩
  · rw [if_neg hu, if_neg hu]
    exact ⟨rfl, rfl, rfl, rfl, rfl⟩

/-- NoWait cache with whole-ms ttl 1 ms, successful refresh, value 7 at
ms 0, not currently updating. -/
def cacheNoWaitOk : Cache Int String :=
  { updateFn := updOkTwo
    ttl := 1000000
    opts := optsNoWait
    onceDone := true
    val := some 7
    lastUpdateMs := 0
    updating := false }

/-- Witness for C5: call at age 1.5 ms serves the stale 7 and spawns the
background refresh. -/
theorem C5_stale_serve_witness :
    (cacheNoWaitOk.GetWithCtx (Ctx.caller 5)
      (Int.tdiv 1500000 1000000) 1500000 6).value = 7 ∧
    (cacheNoWaitOk.GetWithCtx (Ctx.caller 5)
      (Int.tdiv 1500000 1000000) 1500000 6).err = none ∧
    (cacheNoWaitOk.GetWithCtx (Ctx.caller 5)
      (Int.tdiv 1500000 1000000) 1500000 6).bgRefreshCtx =
      (if cacheNoWaitOk.updating = true then none
        else some Ctx.background) := by
  have h := C5_stale_serve cacheNoWaitOk (Ctx.caller 5) 7 1500000
    1500000 6 rfl rfl (by decide) (by decide) (by decide)
    ⟨1, by decide⟩ (by decide) (by decide)
  exact ⟨h.1, h.2.1, h.2.2.2.2⟩

/-! ## C9 -/

/-- Sub-millisecond ttl 0.9 ms, NoWait off, value 7 stamped at ms 5. -/
def cacheSubMs : Cache Int String :=
  { updateFn := updOkTwo
    ttl := 900000
    opts := optsPlain
    onceDone := true
    val := some 7
    lastUpdateMs := 5
    updating := false }

/-- C9 (counterexample): ttl = 0.9 ms < 1 ms and a call 0.4 ms after the
stamp: the fresh path is indeed not taken (the truncated test 0 < 0
fails), but the call invokes NO refresh at all — the nanosecond-precision
double check inside the synchronous path returns the cached value —
refuting the claim's "every get invokes a refresh". -/
theorem C9_counterexample :
    cacheSubMs.ttl < 1000000 ∧
    (cacheSubMs.GetWithCtx (Ctx.caller 0) 5 5400000 6).value = 7 ∧
    (cacheSubMs.GetWithCtx (Ctx.caller 0) 5 5400000 6).err = none ∧
    (cacheSubMs.GetWithCtx (Ctx.caller 0) 5 5400000
      6).syncRefreshCtx = none ∧
    (cacheSubMs.GetWithCtx (Ctx.caller 0) 5 5400000 6).bgRefreshCtx =
      none := by
  refine ⟨by decide, rfl, rfl, rfl, rfl⟩

/-- C9 (amended): the fast-path age comparisons use
`ttl.Milliseconds()` = `Int.tdiv ttl 1000000`.  Hence (i) for every ttl
shorter than one millisecond neither the fresh path nor the stale-serve
path is ever taken — every get falls through to the synchronous path,
though the nanosecond-precision double check may still answer without
invoking a refresh — and (ii) for every nonnegative ttl with a fractional
millisecond component the truncated window is strictly shorter than the
configured ttl. -/
theorem C9_ms_truncation {T E : Type} [Inhabited T] :
    (∀ (c : Cache T E) (ctx : Ctx) (tNowMs tCheckNs stampMs : Int),
      0 ≤ c.ttl → c.ttl < 1000000 → c.lastUpdateMs ≤ tNowMs →
      (c.GetWithCtx ctx tNowMs tCheckNs stampMs).path ≠ GetPath.fresh ∧
      (c.GetWithCtx ctx tNowMs tCheckNs stampMs).path ≠
        GetPath.staleServe) ∧
    (∀ d : Int, 0 ≤ d → ¬(1000000 : Int) ∣ d →
      durMilliseconds d * 1000000 < d) := by
  constructor
  · intro c ctx tNowMs tCheckNs stampMs httl hsub hle
    have h0 : durMilliseconds c.ttl = 0 := by
      unfold durMilliseconds
      rw [tdiv_1e6_eq_ediv _ httl]
      omega
    have hroute : c.GetWithCtx ctx tNowMs tCheckNs stampMs =
        c.syncUpdatePath ctx tCheckNs stampMs := by
      apply getWithCtx_eq_syncPath
      · rw [h0]; omega
      · exact Or.inr (by rw [h0]; omega)
    rw [hroute]
    rcases (syncUpdatePath_path c ctx tCheckNs stampMs).1 with h | h
    · rw [h]; exact ⟨by decide, by decide⟩
    · rw [h]; exact ⟨by decide, by decide⟩
  · intro d hd hnd
    unfold durMilliseconds
    rw [tdiv_1e6_eq_ediv _ hd]
    omega

/-- Witness for C9: the sub-ms cache never takes the fast paths, and the
fractional ttl 1.5 ms has a truncated window strictly below 1.5 ms. -/
theorem C9_ms_truncation_witness :
    ((cacheSubMs.GetWithCtx (Ctx.caller 9) 5 5400000 6).path ≠
      GetPath.fresh ∧
     (cacheSubMs.GetWithCtx (Ctx.caller 9) 5 5400000 6).path ≠
      GetPath.staleServe) ∧
    durMilliseconds 1500000 * 1000000 < 1500000 :=
  ⟨(C9_ms_truncation (T := Int) (E := String)).1 cacheSubMs
      (Ctx.caller 9) 5 5400000 6 (by decide) (by decide) (by decide),
   (C9_ms_truncation (T := Int) (E := String)).2 1500000 (by decide)
      (by omega)⟩

end Cachevalue
